import Mathlib

/-!
Shallow embedding of `PoolWithFailoverBase` (failover-aware resource pool
selector) and its helpers (`ResourceTracker`, `PoolWithErrorCount`,
`PoolsWithErrorCount`).

Modelling conventions:
* `UInt64 error_count` is modelled as `Nat` (only incremented, right-shifted
  and zeroed; no operation in the verified claims can overflow 64 bits),
  `Int64 priority` as `Int`, `UInt32 random` as `Nat`, `time_t` as `Int`.
* The injected virtual `tryGet` hook is modelled as an oracle
  `hook : Nat → Option String`, consulted at a global attempt counter:
  `none` means the attempt succeeds, `some msg` means it fails with
  diagnostic message `msg`.  Quantifying over `hook` quantifies over every
  observable sequence of per-attempt successes and failures.
* `PoolsWithErrorCount::update` both redraws the per-entry randoms and
  decays the error counters.  The decay/time part is embedded as
  `PoolsWithErrorCount.update`; the selection path (`getResource`) receives
  the snapshot `states` as an explicit parameter, so theorems about it
  quantify over every possible random draw and error count.
* A connection `Entry` is identified by the index of the replica pool it
  came from, which is all the claims inspect.
-->
-/

/-! ### Sort keys: `PoolWithErrorCount::State` -/

structure State where
  priority : Int
  error_count : Nat
  random : Nat
  deriving DecidableEq, Repr, Inhabited

namespace State

/-- `State::compare`: `std::tie(priority, error_count, random) <
std::tie(...)`, i.e. strict lexicographic comparison of the full triple. -/
def lt (l r : State) : Prop :=
  l.priority < r.priority ∨
    (l.priority = r.priority ∧
      (l.error_count < r.error_count ∨
        (l.error_count = r.error_count ∧ l.random < r.random)))

instance : DecidableRel lt := fun _ _ => by
  unfold lt; infer_instance

end State

/-! ### `ResourceTracker` -/

structure ResourceTracker where
  handles : List Nat
  unallocated_size : Nat
  deriving DecidableEq, Repr

namespace ResourceTracker

/-- `ResourceTracker(s)`: handles `[0, 1, …, s−1]`, all unallocated. -/
def create (s : Nat) : ResourceTracker :=
  { handles := List.range s, unallocated_size := s }

/-- `getHandle(i)`: `handles[i]` (the C++ does no bounds check). -/
def getHandle (t : ResourceTracker) (i : Nat) : Nat :=
  t.handles.getD i 0

def getUnallocatedSize (t : ResourceTracker) : Nat :=
  t.unallocated_size

/-- `markAsAllocated(i)`: `std::swap(handles[i], handles[unallocated_size-1])`
then `--unallocated_size`. -/
def markAsAllocated (t : ResourceTracker) (i : Nat) : ResourceTracker :=
  let j := t.unallocated_size - 1
  { handles := (t.handles.set i (t.handles.getD j 0)).set j (t.handles.getD i 0),
    unallocated_size := j }

end ResourceTracker

/-! ### Decay of error counters: `PoolsWithErrorCount` state and `update` -/

structure PoolsWithErrorCount where
  errorCounts : List Nat
  last_decrease_time : Int
  decrease_error_period : Int
  deriving DecidableEq, Repr

namespace PoolsWithErrorCount

/-- The time/decay portion of `PoolsWithErrorCount::update`, called with the
current wall-clock time `now` (`time(0)`).  The per-entry `randomize()` calls
do not touch the fields modelled here; the snapshot's error counts are the
post-decay counts.  `sizeof(UInt64)` in the zeroing guard is `8`. -/
def update (p : PoolsWithErrorCount) (now : Int) : PoolsWithErrorCount :=
  if p.last_decrease_time ≠ 0 then
    let delta : Int := now - p.last_decrease_time
    if 0 ≤ delta then
      let shift : Nat := ((delta / p.decrease_error_period).toNat)
      let p1 := if shift ≠ 0 then { p with last_decrease_time := now } else p
      if 8 ≤ shift then
        { p1 with errorCounts := p.errorCounts.map (fun _ => 0) }
      else if shift ≠ 0 then
        { p1 with errorCounts := p.errorCounts.map (fun e => e >>> shift) }
      else
        p1
    else
      p
  else
    { p with last_decrease_time := now }

end PoolsWithErrorCount

/-! ### Candidate records: `IndexedPoolWithErrorCount` -/

/-- One element of `pool_ptrs` in `getResource`: the tracker-local index
(`index`), the replica pool's index in `nested_pools`, and that replica's
snapshot state. -/
structure Candidate where
  localIndex : Nat
  poolIndex : Nat
  state : State
  deriving DecidableEq, Repr

/-- The sorting relation used by `std::sort` with strict comparator
`State::compare`: a non-strict "not greater" relation equivalent to
lexicographic ≤ on the triple. -/
def candLE (a b : Candidate) : Prop := ¬ State.lt b.state a.state

instance : DecidableRel candLE := fun _ _ => by
  unfold candLE; infer_instance

instance : IsTotal Candidate candLE where
  total a b := by
    unfold candLE State.lt
    omega

instance : IsTrans Candidate candLE where
  trans a b c hab hbc := by
    unfold candLE State.lt at hab hbc ⊢
    omega

/-- `std::sort(pool_ptrs...)` with comparator `State::compare`, embedded as a
sort consistent with the strict weak ordering (stability is unspecified in
the source). -/
def probeOrder (cands : List Candidate) : List Candidate :=
  List.insertionSort candLE cands

/-! ### The retry loop of `getResource` -/

/-- One sweep over the sorted candidates at a fixed `try_no`: invoke the
hook for each candidate in order until one succeeds.  Returns the successful
candidate (if any), the advanced attempt counter, and the accumulated
failure messages. -/
def sweep (cands : List Candidate) (hook : Nat → Option String) (c : Nat)
    (msgs : List String) : Option Candidate × Nat × List String :=
  match cands with
  | [] => (none, c, msgs)
  | cand :: rest =>
    match hook c with
    | none => (some cand, c + 1, msgs)
    | some m => sweep rest hook (c + 1) (msgs ++ [m])

/-- The outer `for (try_no = 0; try_no < max_tries; ++try_no)` loop. -/
def tryLoop (cands : List Candidate) (hook : Nat → Option String)
    (tries : Nat) (c : Nat) (msgs : List String) :
    Option Candidate × Nat × List String :=
  match tries with
  | 0 => (none, c, msgs)
  | t + 1 =>
    match sweep cands hook c msgs with
    | (some cand, c1, msgs1) => (some cand, c1, msgs1)
    | (none, c1, msgs1) => tryLoop cands hook t c1 msgs1

/-! ### `getResource` -/

/-- Result of one `getResource` call: the replica index of the connection on
success, the tracker afterwards, the attempt counter afterwards, the
accumulated `fail_messages`, and the deltas of the two profile-event
counters. -/
structure GRes where
  success : Option Nat
  tracker : Option ResourceTracker
  counter : Nat
  msgs : List String
  failTry : Nat
  failAtAll : Nat
  deriving DecidableEq, Repr

/-- The number of candidate slots: `resource_tracker ?
resource_tracker->getUnallocatedSize() : nested_pools.size()`. -/
def poolsSize (states : List State) (tracker : Option ResourceTracker) : Nat :=
  match tracker with
  | none => states.length
  | some t => t.getUnallocatedSize

/-- `pool_index` of local slot `i`: `resource_tracker ?
resource_tracker->getHandle(i) : i`. -/
def poolIndexAt (tracker : Option ResourceTracker) (i : Nat) : Nat :=
  match tracker with
  | none => i
  | some t => t.getHandle i

/-- The unsorted `pool_ptrs` vector. -/
def mkCandidates (states : List State) (tracker : Option ResourceTracker) :
    List Candidate :=
  (List.range (poolsSize states tracker)).map fun i =>
    { localIndex := i
      poolIndex := poolIndexAt tracker i
      state := states.getD (poolIndexAt tracker i) default }

/-- `PoolWithFailoverBase::getResource`.  `states` is the snapshot returned
by `nested_pools.update()` (error counts and fresh randoms); `c` is the
attempt counter at entry. -/
def getResource (states : List State) (maxTries : Nat)
    (tracker : Option ResourceTracker) (hook : Nat → Option String)
    (c : Nat) : GRes :=
  let sorted := probeOrder (mkCandidates states tracker)
  match tryLoop sorted hook maxTries c [] with
  | (some cand, c1, msgs1) =>
    { success := some cand.poolIndex
      tracker := tracker.map (fun t => t.markAsAllocated cand.localIndex)
      counter := c1
      msgs := msgs1
      failTry := msgs1.length
      failAtAll := 0 }
  | (none, c1, msgs1) =>
    { success := none
      tracker := tracker
      counter := c1
      msgs := msgs1
      failTry := msgs1.length
      failAtAll := 1 }

/-! ### The public surface: `get` and `getMany` -/

structure Settings where
  max_parallel_replicas : Nat
  skip_unavailable_shards : Bool
  deriving DecidableEq, Repr

/-- `settings ? UInt64(settings->max_parallel_replicas) : 1`. -/
def maxConnections (settings : Option Settings) : Nat :=
  match settings with
  | none => 1
  | some s => s.max_parallel_replicas

/-- `settings ? UInt64(settings->skip_unavailable_shards) : false`. -/
def skipUnavailable (settings : Option Settings) : Bool :=
  match settings with
  | none => false
  | some s => s.skip_unavailable_shards

/-- The accumulated `fail_messages` stream: each failing attempt appends its
message followed by `std::endl`. -/
def joinLines : List String → String
  | [] => ""
  | m :: rest => m ++ "\n" ++ joinLines rest

/-- The payload of the `DB::NetException` with code
`ALL_CONNECTION_TRIES_FAILED`. -/
def excMsg (msgs : List String) : String :=
  "All connection tries failed. Log: \n\n" ++ joinLines msgs ++ "\n"

/-- `PoolWithFailoverBase::get` (a.k.a. `acquireOne` / `selectOne`).
Returns `Except.error payload` for a thrown exception, `Except.ok none` for
the default-constructed empty `Entry` (`return {}`), `Except.ok (some i)`
for a connection from replica `i`; paired with the `getResource` result so
the profile-event deltas are observable. -/
def PoolWithFailoverBase.get (states : List State) (maxTries : Nat)
    (hook : Nat → Option String) (settings : Option Settings) :
    Except String (Option Nat) × GRes :=
  let r := getResource states maxTries none hook 0
  match r.success with
  | some idx => (Except.ok (some idx), r)
  | none =>
    if skipUnavailable settings then (Except.ok none, r)
    else (Except.error (excMsg r.msgs), r)

/-- State threaded through the `getMany` loop. -/
structure GManyState where
  tracker : ResourceTracker
  counter : Nat
  acc : List Nat
  failTry : Nat
  failAtAll : Nat
  deriving DecidableEq, Repr

/-- The `for (UInt64 i = 0; i < max_connections; ++i)` loop of `getMany`.
`statesFor i` is the snapshot `nested_pools.update()` returns on iteration
`i` (each iteration redraws randoms and may decay). -/
def getManyLoop (statesFor : Nat → List State) (maxTries : Nat)
    (hook : Nat → Option String) (skip : Bool) (i : Nat) (remaining : Nat)
    (st : GManyState) : Except String (List Nat) × GManyState :=
  match remaining with
  | 0 => (Except.ok st.acc, st)
  | r + 1 =>
    let res := getResource (statesFor i) maxTries (some st.tracker) hook st.counter
    let st1 : GManyState :=
      { tracker := res.tracker.getD st.tracker
        counter := res.counter
        acc := st.acc
        failTry := st.failTry + res.failTry
        failAtAll := st.failAtAll + res.failAtAll }
    match res.success with
    | some idx =>
      getManyLoop statesFor maxTries hook skip (i + 1) r
        { st1 with acc := st.acc ++ [idx] }
    | none =>
      if i = 0 ∧ skip = false then (Except.error (excMsg res.msgs), st1)
      else (Except.ok st.acc, st1)

/-- `PoolWithFailoverBase::getMany` (a.k.a. `acquireMany` / `selectMany`),
over `n` nested pools. -/
def getMany (n : Nat) (statesFor : Nat → List State) (maxTries : Nat)
    (hook : Nat → Option String) (settings : Option Settings) :
    Except String (List Nat) × GManyState :=
  getManyLoop statesFor maxTries hook (skipUnavailable settings) 0
    (maxConnections settings)
    { tracker := ResourceTracker.create n
      counter := 0
      acc := []
      failTry := 0
      failAtAll := 0 }

/-! ### Operation sequences on `ResourceTracker` -/

/-- One `ResourceTracker` call made by the selector: `getHandle(i)` (a pure
read) or `markAsAllocated(i)` (consume). -/
inductive TrackerOp where
  | handleAt (i : Nat) : TrackerOp
  | consume (i : Nat) : TrackerOp
  deriving DecidableEq, Repr

/-- Effect of one call on the tracker state. -/
def applyOp (t : ResourceTracker) : TrackerOp → ResourceTracker
  | .handleAt _ => t
  | .consume i => t.markAsAllocated i

/-- The contract `PoolWithFailoverBase` maintains: every index passed to the
tracker lies in `[0, unallocated_size)`. -/
def validOps (t : ResourceTracker) : List TrackerOp → Bool
  | [] => true
  | .handleAt i :: rest => decide (i < t.unallocated_size) && validOps t rest
  | .consume i :: rest =>
      decide (i < t.unallocated_size) && validOps (t.markAsAllocated i) rest

/-- Run a sequence of tracker calls. -/
def applyOps (t : ResourceTracker) : List TrackerOp → ResourceTracker
  | [] => t
  | op :: rest => applyOps (applyOp t op) rest

/-- Invariant tying a tracker to the list `acc` of replica indices already
handed out by successful `getResource` calls: the handles are a permutation
of `[0, N)`, and everything already handed out lies outside the unallocated
prefix. -/
def TrackerInv (n : Nat) (t : ResourceTracker) (acc : List Nat) : Prop :=
  t.handles.Perm (List.range n) ∧
  t.unallocated_size ≤ n ∧
  acc.Nodup ∧
  ∀ x ∈ acc, x ∉ t.handles.take t.unallocated_size

/-- Modelled from the spec: "the accumulated per-attempt failure messages
joined by newlines" — the reading of the diagnostics payload that claim C8
asserts, to be compared with the payload `excMsg` built from the source. -/
def newlineJoined : List String → String
  | [] => ""
  | [m] => m
  | m :: rest => m ++ "\n" ++ newlineJoined rest

/-! ## Theorems -/

/-! ### Decay (`PoolsWithErrorCount::update`): C1, C7, C9 -/

theorem update_decrease_error_period (p : PoolsWithErrorCount) (now : Int) :
    (p.update now).decrease_error_period = p.decrease_error_period := by
  unfold PoolsWithErrorCount.update
  dsimp only
  split_ifs <;> rfl

theorem update_errorCounts_of_subperiod (p : PoolsWithErrorCount) (now : Int)
    (hlt : now - p.last_decrease_time < p.decrease_error_period) :
    (p.update now).errorCounts = p.errorCounts := by
  unfold PoolsWithErrorCount.update
  by_cases h0 : p.last_decrease_time ≠ 0
  · rw [if_pos h0]
    by_cases hd : (0 : Int) ≤ now - p.last_decrease_time
    · rw [if_pos hd]
      have hdiv : (now - p.last_decrease_time) / p.decrease_error_period = 0 :=
        Int.ediv_eq_zero_of_lt hd hlt
      simp only [hdiv, Int.toNat_zero]
      norm_num
    · rw [if_neg hd]
  · rw [if_neg h0]

/-- C1: the claim asserts that during a decay step every entry's
`error_count` is zeroed exactly when `shift ≥ 64` (the bit width of
`UInt64`) and right-shifted by `shift` bits for every `0 < shift < 64`.
The code compares `shift_amount >= sizeof(UInt64)`, i.e. `8`: at
`error_count = 256`, `last_decrease_time = 1`, `decrease_error_period = 1`,
`now = 9` (so `shift = 8`), the code zeroes the counter although
`256 >>> 8 = 1 ≠ 0`, contradicting the claim's required behaviour for
`shift = 8 < 64`. -/
theorem c1_decay_zeroes_at_shift_eight :
    (PoolsWithErrorCount.update
        { errorCounts := [256], last_decrease_time := 1,
          decrease_error_period := 1 } 9).errorCounts = [0] ∧
      (256 : Nat) >>> 8 = 1 := by
  constructor
  · rfl
  · rfl

/-- C7: `last_decrease_time` changes only when the computed
`shift = delta / decrease_error_period` is nonzero or on the first-ever
snapshot (`last_decrease_time = 0`); and a snapshot with the wall clock
behind `last_decrease_time` (negative `delta`) performs no decay and leaves
the whole state — `last_decrease_time` included — unchanged. -/
theorem c7_last_decrease_time_advances_only_on_shift
    (p : PoolsWithErrorCount) (now : Int) :
    ((p.update now).last_decrease_time ≠ p.last_decrease_time →
      p.last_decrease_time = 0 ∨
        (0 ≤ now - p.last_decrease_time ∧
          ((now - p.last_decrease_time) / p.decrease_error_period).toNat ≠ 0)) ∧
    (p.last_decrease_time ≠ 0 → now < p.last_decrease_time →
      p.update now = p) := by
  constructor
  · intro hne
    by_cases h0 : p.last_decrease_time ≠ 0
    · right
      unfold PoolsWithErrorCount.update at hne
      rw [if_pos h0] at hne
      by_cases hd : (0 : Int) ≤ now - p.last_decrease_time
      · refine ⟨hd, ?_⟩
        rw [if_pos hd] at hne
        intro hz
        simp only [hz] at hne
        norm_num at hne
      · rw [if_neg hd] at hne
        exact absurd rfl hne
    · left
      simpa using h0
  · intro h0 hlt
    unfold PoolsWithErrorCount.update
    rw [if_pos h0, if_neg (by omega : ¬ (0 : Int) ≤ now - p.last_decrease_time)]

/-- Witness for C7 at a concrete input: `last_decrease_time = 10`,
`now = 5` (clock went backwards): the update is the identity. -/
theorem c7_witness :
    ((10 : Int) ≠ 0 ∧ (5 : Int) < 10) ∧
      PoolsWithErrorCount.update
        { errorCounts := [3], last_decrease_time := 10,
          decrease_error_period := 2 } 5 =
      { errorCounts := [3], last_decrease_time := 10,
        decrease_error_period := 2 } :=
  ⟨⟨by decide, by decide⟩,
    (c7_last_decrease_time_advances_only_on_shift
      { errorCounts := [3], last_decrease_time := 10,
        decrease_error_period := 2 } 5).2 (by decide) (by decide)⟩

/-- C9: decay is idempotent within a sub-period: if the second snapshot is
taken at a time `now2` with `0 ≤ now2 − last_decrease_time <
decrease_error_period` relative to the state after the first snapshot (and
no increments happen in between), the error counts are unchanged. -/
theorem c9_decay_idempotent_within_subperiod (p : PoolsWithErrorCount)
    (now1 now2 : Int) (_hper : 0 < p.decrease_error_period)
    (_h0 : 0 ≤ now2 - (p.update now1).last_decrease_time)
    (h1 : now2 - (p.update now1).last_decrease_time < p.decrease_error_period) :
    ((p.update now1).update now2).errorCounts = (p.update now1).errorCounts :=
  update_errorCounts_of_subperiod (p.update now1) now2
    (by rwa [update_decrease_error_period])

/-- Witness for C9: period 10, first decay at `now1 = 25` (from
`last_decrease_time = 5`, shift 2), second snapshot at `now2 = 30`
(5 seconds later, sub-period): counts unchanged. -/
theorem c9_witness :
    ((0 : Int) < 10 ∧
      (0 : Int) ≤ 30 - (PoolsWithErrorCount.update
        { errorCounts := [8], last_decrease_time := 5,
          decrease_error_period := 10 } 25).last_decrease_time ∧
      30 - (PoolsWithErrorCount.update
        { errorCounts := [8], last_decrease_time := 5,
          decrease_error_period := 10 } 25).last_decrease_time < 10) ∧
    ((PoolsWithErrorCount.update
        { errorCounts := [8], last_decrease_time := 5,
          decrease_error_period := 10 } 25).update 30).errorCounts =
      (PoolsWithErrorCount.update
        { errorCounts := [8], last_decrease_time := 5,
          decrease_error_period := 10 } 25).errorCounts :=
  ⟨⟨by decide, by decide, by decide⟩,
    c9_decay_idempotent_within_subperiod
      { errorCounts := [8], last_decrease_time := 5,
        decrease_error_period := 10 } 25 30 (by decide) (by decide) (by decide)⟩

/-! ### Candidate ordering: C2 -/

/-- C2: in every selection round the candidates are probed in
lexicographically ascending order of the triple `(priority, error_count,
random)`; the probe order is a sorted permutation of the candidate list,
and in particular, for two candidates with equal error counts, the one with
the smaller priority occupies the strictly earlier probe position. -/
theorem c2_lower_priority_probed_first (cands : List Candidate) :
    (probeOrder cands).Sorted candLE ∧ (probeOrder cands).Perm cands ∧
    ∀ (k l : Nat) (hk : k < (probeOrder cands).length)
      (hl : l < (probeOrder cands).length),
      ((probeOrder cands).get ⟨k, hk⟩).state.priority <
          ((probeOrder cands).get ⟨l, hl⟩).state.priority →
      ((probeOrder cands).get ⟨k, hk⟩).state.error_count =
          ((probeOrder cands).get ⟨l, hl⟩).state.error_count →
      k < l := by
  refine ⟨List.sorted_insertionSort candLE cands,
    List.perm_insertionSort candLE cands, ?_⟩
  intro k l hk hl hp _he
  by_contra hle
  push_neg at hle
  rcases Nat.lt_or_ge l k with hlt | hge
  · have hrel := (List.sorted_insertionSort candLE cands).rel_get_of_lt
      (a := ⟨l, hl⟩) (b := ⟨k, hk⟩) hlt
    exact hrel (Or.inl hp)
  · have : l = k := Nat.le_antisymm hle hge
    subst this
    exact lt_irrefl _ hp

/-- Witness for C2: two candidates with equal error counts and priorities
2 < 5; the priority-2 candidate sits at probe position 0, before position 1. -/
theorem c2_witness :
    (((probeOrder ([⟨0, 0, ⟨5, 7, 1⟩⟩, ⟨1, 1, ⟨2, 7, 9⟩⟩] : List Candidate)).get
        ⟨0, by decide⟩).state.priority <
      ((probeOrder ([⟨0, 0, ⟨5, 7, 1⟩⟩, ⟨1, 1, ⟨2, 7, 9⟩⟩] : List Candidate)).get
        ⟨1, by decide⟩).state.priority) ∧
    (0 : Nat) < 1 :=
  ⟨by decide,
    (c2_lower_priority_probed_first
        ([⟨0, 0, ⟨5, 7, 1⟩⟩, ⟨1, 1, ⟨2, 7, 9⟩⟩] : List Candidate)).2.2
      0 1 (by decide) (by decide) (by decide) (by decide)⟩

/-! ### Retry-loop bookkeeping lemmas -/

theorem tryLoop_nil (hook : Nat → Option String) (t c : Nat)
    (msgs : List String) : tryLoop [] hook t c msgs = (none, c, msgs) := by
  induction t with
  | zero => rfl
  | succ t ih => simp only [tryLoop, sweep]; exact ih

theorem sweep_msgs_length_le (cands : List Candidate)
    (hook : Nat → Option String) (c : Nat) (msgs : List String) :
    msgs.length ≤ (sweep cands hook c msgs).2.2.length := by
  induction cands generalizing c msgs with
  | nil => exact le_refl _
  | cons cand rest ih =>
    rw [sweep]
    cases hook c with
    | none => exact le_refl _
    | some m =>
      calc msgs.length ≤ (msgs ++ [m]).length := by simp
        _ ≤ _ := ih (c + 1) (msgs ++ [m])

theorem sweep_none_spec (cands : List Candidate)
    (hook : Nat → Option String) (c : Nat) (msgs : List String)
    (h : (sweep cands hook c msgs).1 = none) :
    (sweep cands hook c msgs).2.1 = c + cands.length ∧
    (sweep cands hook c msgs).2.2.length = msgs.length + cands.length := by
  induction cands generalizing c msgs with
  | nil => simp [sweep]
  | cons cand rest ih =>
    rw [sweep] at h ⊢
    cases hhc : hook c with
    | none => simp [hhc] at h
    | some m =>
      simp only [hhc] at h ⊢
      have hrec := ih (c + 1) (msgs ++ [m]) h
      refine ⟨?_, ?_⟩
      · rw [hrec.1]; simp; omega
      · rw [hrec.2]; simp; omega

theorem tryLoop_msgs_length_le (cands : List Candidate)
    (hook : Nat → Option String) (t c : Nat) (msgs : List String) :
    msgs.length ≤ (tryLoop cands hook t c msgs).2.2.length := by
  induction t generalizing c msgs with
  | zero => exact le_refl _
  | succ t ih =>
    rw [tryLoop]
    rcases hsw : sweep cands hook c msgs with ⟨_ | cand, c1, msgs1⟩
    · have hle := sweep_msgs_length_le cands hook c msgs
      rw [hsw] at hle
      exact le_trans hle (ih c1 msgs1)
    · have hle := sweep_msgs_length_le cands hook c msgs
      rw [hsw] at hle
      exact hle

theorem tryLoop_none_msgs_length (cands : List Candidate)
    (hook : Nat → Option String) (t c : Nat) (msgs : List String)
    (ht : 1 ≤ t) (h : (tryLoop cands hook t c msgs).1 = none) :
    msgs.length + cands.length ≤ (tryLoop cands hook t c msgs).2.2.length := by
  rcases t with _ | t
  · omega
  · rw [tryLoop] at h ⊢
    rcases hsw : sweep cands hook c msgs with ⟨_ | cand, c1, msgs1⟩
    · have hspec := sweep_none_spec cands hook c msgs (by rw [hsw])
      rw [hsw] at hspec
      have h2 : msgs1.length = msgs.length + cands.length := hspec.2
      have hmono := tryLoop_msgs_length_le cands hook t c1 msgs1
      show msgs.length + cands.length ≤ (tryLoop cands hook t c1 msgs1).2.2.length
      omega
    · rw [hsw] at h
      simp at h

/-! ### C5: single always-failing replica, `max_tries = 3` -/

/-- C5: with one replica whose acquisition hook always fails and
`max_tries = 3`, one `get` (selectOne) call invokes the hook exactly 3
times (the attempt counter advances from 0 to 3), increments
`DistributedConnectionFailTry` by exactly 3 and
`DistributedConnectionFailAtAll` by exactly 1. -/
theorem c5_single_replica_always_failing (s : State)
    (settings : Option Settings) (hook : Nat → Option String)
    (m : Nat → String) (hfail : ∀ i, hook i = some (m i)) :
    (PoolWithFailoverBase.get [s] 3 hook settings).2.counter = 3 ∧
    (PoolWithFailoverBase.get [s] 3 hook settings).2.failTry = 3 ∧
    (PoolWithFailoverBase.get [s] 3 hook settings).2.failAtAll = 1 := by
  have h0 := hfail 0
  have h1 := hfail 1
  have h2 := hfail 2
  cases hskip : skipUnavailable settings <;>
    simp [PoolWithFailoverBase.get, getResource, mkCandidates, poolsSize, poolIndexAt, probeOrder,
      tryLoop, sweep, h0, h1, h2, hskip, List.getD]

/-- Witness for C5 with the constant failure message "refused". -/
theorem c5_witness :
    (∀ i, (fun _ : Nat => some "refused") i =
        some ((fun _ : Nat => "refused") i)) ∧
    (PoolWithFailoverBase.get [default] 3 (fun _ => some "refused") none).2.counter = 3 ∧
    (PoolWithFailoverBase.get [default] 3 (fun _ => some "refused") none).2.failTry = 3 ∧
    (PoolWithFailoverBase.get [default] 3 (fun _ => some "refused") none).2.failAtAll = 1 :=
  ⟨fun _ => rfl,
    c5_single_replica_always_failing default none _ _ (fun _ => rfl)⟩

/-! ### `getResource` characterization and C8 -/

theorem getResource_eq (states : List State) (maxTries : Nat)
    (tracker : Option ResourceTracker) (hook : Nat → Option String) (c : Nat) :
    getResource states maxTries tracker hook c =
      match tryLoop (probeOrder (mkCandidates states tracker)) hook maxTries c [] with
      | (some cand, c1, msgs1) =>
        { success := some cand.poolIndex
          tracker := tracker.map (fun t => t.markAsAllocated cand.localIndex)
          counter := c1
          msgs := msgs1
          failTry := msgs1.length
          failAtAll := 0 }
      | (none, c1, msgs1) =>
        { success := none
          tracker := tracker
          counter := c1
          msgs := msgs1
          failTry := msgs1.length
          failAtAll := 1 } := rfl

theorem length_mkCandidates (states : List State)
    (tracker : Option ResourceTracker) :
    (mkCandidates states tracker).length = poolsSize states tracker := by
  simp [mkCandidates]

theorem length_probeOrder (cands : List Candidate) :
    (probeOrder cands).length = cands.length := by
  simp [probeOrder]

theorem joinLines_eq_newlineJoined (msgs : List String) (h : msgs ≠ []) :
    joinLines msgs = newlineJoined msgs ++ "\n" := by
  induction msgs with
  | nil => exact absurd rfl h
  | cons m rest ih =>
    cases rest with
    | nil => simp [joinLines, newlineJoined, String.append_empty]
    | cons m2 rest2 =>
      rw [joinLines, ih (by simp)]
      have hnj : newlineJoined (m :: m2 :: rest2) =
          m ++ "\n" ++ newlineJoined (m2 :: rest2) := rfl
      rw [hnj]
      simp [String.append_assoc]

theorem get_snd (states : List State) (maxTries : Nat)
    (hook : Nat → Option String) (settings : Option Settings) :
    (PoolWithFailoverBase.get states maxTries hook settings).2 =
      getResource states maxTries none hook 0 := by
  simp only [PoolWithFailoverBase.get]
  cases h : (getResource states maxTries none hook 0).success with
  | some idx => rfl
  | none =>
    by_cases hskip : skipUnavailable settings <;> simp [hskip]

/-- C8: when every candidate has failed `max_tries` times (i.e.
`getResource` failed), `get` returns the empty entry without raising if
`skip_unavailable_shards` is set, and otherwise raises
`AllConnectionTriesFailed` whose payload embeds the accumulated per-attempt
failure messages joined by newlines (each message separated by a newline,
plus the code's trailing newlines). -/
theorem c8_all_tries_failed (states : List State) (maxTries : Nat)
    (hook : Nat → Option String) (settings : Option Settings)
    (hs : states ≠ []) (ht : 1 ≤ maxTries)
    (hfail : (PoolWithFailoverBase.get states maxTries hook settings).2.success
      = none) :
    (skipUnavailable settings = true →
      (PoolWithFailoverBase.get states maxTries hook settings).1 =
        Except.ok none) ∧
    (skipUnavailable settings = false →
      (PoolWithFailoverBase.get states maxTries hook settings).1 =
        Except.error ("All connection tries failed. Log: \n\n" ++
          newlineJoined
            (PoolWithFailoverBase.get states maxTries hook settings).2.msgs ++
          "\n\n")) := by
  rw [get_snd] at hfail
  have hmsgs : (getResource states maxTries none hook 0).msgs ≠ [] := by
    rw [getResource_eq] at hfail ⊢
    rcases htl : tryLoop (probeOrder (mkCandidates states none)) hook
        maxTries 0 [] with ⟨_ | cand, c1, msgs1⟩
    · show msgs1 ≠ []
      have hlen := tryLoop_none_msgs_length
        (probeOrder (mkCandidates states none)) hook maxTries 0 [] ht
        (by rw [htl])
      rw [htl] at hlen
      have hc : (probeOrder (mkCandidates states none)).length =
          states.length := by
        rw [length_probeOrder, length_mkCandidates]; rfl
      have hpos : 0 < states.length := List.length_pos.mpr hs
      rw [hc] at hlen
      simp only [List.length_nil] at hlen
      intro hnil
      rw [hnil] at hlen
      simp only [List.length_nil] at hlen
      omega
    · rw [htl] at hfail
      simp at hfail
  have hget1 : skipUnavailable settings = false →
      (PoolWithFailoverBase.get states maxTries hook settings).1 =
        Except.error
          (excMsg (getResource states maxTries none hook 0).msgs) := by
    intro hskip
    simp only [PoolWithFailoverBase.get]
    rw [hfail]
    simp [hskip]
  have hget2 : skipUnavailable settings = true →
      (PoolWithFailoverBase.get states maxTries hook settings).1 =
        Except.ok none := by
    intro hskip
    simp only [PoolWithFailoverBase.get]
    rw [hfail]
    simp [hskip]
  refine ⟨hget2, ?_⟩
  intro hskip
  rw [hget1 hskip, get_snd]
  have hnn : ("\n" : String) ++ "\n" = "\n\n" := rfl
  unfold excMsg
  rw [joinLines_eq_newlineJoined _ hmsgs]
  simp [String.append_assoc, hnn]

/-- Witness for C8: one replica, `max_tries = 1`, hook always failing with
"refused", `skip_unavailable_shards = false`: `get` raises with the joined
diagnostics. -/
theorem c8_witness :
    (([⟨0, 0, 0⟩] : List State) ≠ [] ∧ 1 ≤ 1 ∧
      (PoolWithFailoverBase.get ([⟨0, 0, 0⟩] : List State) 1
        (fun _ => some "refused") (some ⟨1, false⟩)).2.success = none) ∧
    ((skipUnavailable (some ⟨1, false⟩) = true →
      (PoolWithFailoverBase.get ([⟨0, 0, 0⟩] : List State) 1
        (fun _ => some "refused") (some ⟨1, false⟩)).1 = Except.ok none) ∧
    (skipUnavailable (some ⟨1, false⟩) = false →
      (PoolWithFailoverBase.get ([⟨0, 0, 0⟩] : List State) 1
        (fun _ => some "refused") (some ⟨1, false⟩)).1 =
        Except.error ("All connection tries failed. Log: \n\n" ++
          newlineJoined
            (PoolWithFailoverBase.get ([⟨0, 0, 0⟩] : List State) 1
              (fun _ => some "refused") (some ⟨1, false⟩)).2.msgs ++
          "\n\n"))) :=
  ⟨⟨by decide, by decide, by decide⟩,
    c8_all_tries_failed ([⟨0, 0, 0⟩] : List State) 1
      (fun _ => some "refused") (some ⟨1, false⟩)
      (by decide) (by decide) (by decide)⟩

/-! ### C4: zero replicas -/

theorem getResource_of_maxTries_zero (states : List State)
    (tracker : Option ResourceTracker) (hook : Nat → Option String) (c : Nat) :
    getResource states 0 tracker hook c =
      { success := none, tracker := tracker, counter := c, msgs := [],
        failTry := 0, failAtAll := 1 } := rfl

theorem getResource_of_poolsSize_zero (states : List State) (maxTries : Nat)
    (tracker : Option ResourceTracker) (hook : Nat → Option String) (c : Nat)
    (h : poolsSize states tracker = 0) :
    getResource states maxTries tracker hook c =
      { success := none, tracker := tracker, counter := c, msgs := [],
        failTry := 0, failAtAll := 1 } := by
  have hc : mkCandidates states tracker = [] := by
    simp [mkCandidates, h]
  rw [getResource_eq, hc]
  rw [show probeOrder [] = [] from rfl, tryLoop_nil]
  rfl

theorem getManyLoop_fail_first (statesFor : Nat → List State) (maxTries : Nat)
    (hook : Nat → Option String) (skip : Bool) (i r : Nat) (st : GManyState)
    (hres : (getResource (statesFor i) maxTries (some st.tracker) hook
      st.counter).success = none) :
    (getManyLoop statesFor maxTries hook skip i (r + 1) st).1 =
      if i = 0 ∧ skip = false then
        Except.error (excMsg (getResource (statesFor i) maxTries
          (some st.tracker) hook st.counter).msgs)
      else Except.ok st.acc := by
  simp only [getManyLoop]
  rw [hres]
  split_ifs <;> rfl

/-- C4 counterexample: with `N = 0` replicas and no settings (so
`skip_unavailable_shards = false`, `max_parallel_replicas = 1`), `getMany`
raises `AllConnectionTriesFailed` instead of returning the empty list. -/
theorem c4_counterexample :
    (getMany 0 (fun _ => []) 1 (fun _ => none) none).1 =
      Except.error (excMsg []) := rfl

/-- C4 (amended): with `N = 0` replicas `getResource` always fails without
invoking the hook; `get` returns the empty entry and `getMany` returns the
empty list when `skip_unavailable_shards` is true, while with
`skip_unavailable_shards` false `get` raises `AllConnectionTriesFailed` and
so does `getMany` whenever at least one connection is requested. -/
theorem c4_zero_replicas (statesFor : Nat → List State) (maxTries : Nat)
    (hook : Nat → Option String) (settings : Option Settings) :
    ((getResource [] maxTries none hook 0).success = none ∧
      (getResource [] maxTries none hook 0).counter = 0) ∧
    (skipUnavailable settings = true →
      (getMany 0 statesFor maxTries hook settings).1 = Except.ok [] ∧
      (PoolWithFailoverBase.get [] maxTries hook settings).1 =
        Except.ok none) ∧
    (skipUnavailable settings = false →
      (PoolWithFailoverBase.get [] maxTries hook settings).1 =
        Except.error (excMsg []) ∧
      (1 ≤ maxConnections settings →
        (getMany 0 statesFor maxTries hook settings).1 =
          Except.error (excMsg []))) := by
  have hzero : poolsSize ([] : List State) (none : Option ResourceTracker)
      = 0 := rfl
  have hres0 := getResource_of_poolsSize_zero [] maxTries none hook 0 hzero
  have hget : ∀ b : Bool, skipUnavailable settings = b →
      (PoolWithFailoverBase.get [] maxTries hook settings).1 =
        if b then Except.ok none else Except.error (excMsg []) := by
    intro b hb
    simp only [PoolWithFailoverBase.get]
    rw [hres0]
    simp only [hb]
    cases b <;> rfl
  have htrk : ∀ i : Nat,
      (getResource (statesFor i) maxTries
        (some (ResourceTracker.create 0)) hook 0) =
      { success := none, tracker := some (ResourceTracker.create 0),
        counter := 0, msgs := [], failTry := 0, failAtAll := 1 } := fun i =>
    getResource_of_poolsSize_zero (statesFor i) maxTries
      (some (ResourceTracker.create 0)) hook 0 rfl
  refine ⟨⟨by rw [hres0], by rw [hres0]⟩, ?_, ?_⟩
  · intro hskip
    refine ⟨?_, (hget true hskip).trans rfl⟩
    simp only [getMany]
    rcases hk : maxConnections settings with _ | k
    · rfl
    · have := getManyLoop_fail_first statesFor maxTries hook
        (skipUnavailable settings) 0 k
        { tracker := ResourceTracker.create 0, counter := 0, acc := [],
          failTry := 0, failAtAll := 0 }
        (by rw [htrk 0])
      rw [hskip] at this
      simp at this
      rw [hskip]
      exact this
  · intro hskip
    refine ⟨(hget false hskip).trans rfl, ?_⟩
    intro hk1
    obtain ⟨k, hk⟩ : ∃ k, maxConnections settings = k + 1 :=
      ⟨maxConnections settings - 1, by omega⟩
    simp only [getMany]
    rw [hk]
    have := getManyLoop_fail_first statesFor maxTries hook
      (skipUnavailable settings) 0 k
      { tracker := ResourceTracker.create 0, counter := 0, acc := [],
        failTry := 0, failAtAll := 0 }
      (by rw [htrk 0])
    rw [hskip] at this
    simp at this
    rw [hskip, this, htrk 0]

/-- Witness for C4 (amended) at `skip_unavailable_shards = false`,
`max_parallel_replicas = 1`, `max_tries = 3`. -/
theorem c4_witness :
    (skipUnavailable (some ⟨1, false⟩) = false ∧
      1 ≤ maxConnections (some ⟨1, false⟩)) ∧
    ((PoolWithFailoverBase.get [] 3 (fun _ => none) (some ⟨1, false⟩)).1 =
      Except.error (excMsg []) ∧
    (getMany 0 (fun _ => []) 3 (fun _ => none) (some ⟨1, false⟩)).1 =
      Except.error (excMsg [])) :=
  ⟨⟨rfl, by decide⟩, by
    have h := (c4_zero_replicas (fun _ => []) 3 (fun _ => none)
      (some ⟨1, false⟩)).2.2 rfl
    exact ⟨h.1, h.2 (by decide)⟩⟩

/-! ### The swap in `markAsAllocated` preserves the handle multiset -/

theorem set_getD_self (l : List Nat) (k : Nat) :
    l.set k (l.getD k 0) = l := by
  induction l generalizing k with
  | nil => rfl
  | cons y ys ih =>
    cases k with
    | zero => rfl
    | succ k => simp only [List.getD_cons_succ, List.set_cons_succ, ih]

theorem set_head_perm (xs : List Nat) (k : Nat) (x : Nat)
    (hk : k < xs.length) :
    (xs.getD k 0 :: xs.set k x).Perm (x :: xs) := by
  induction xs generalizing k with
  | nil => simp at hk
  | cons y ys ih =>
    cases k with
    | zero =>
      simp only [List.getD_cons_zero, List.set_cons_zero]
      exact List.Perm.swap x y ys
    | succ k =>
      simp only [List.getD_cons_succ, List.set_cons_succ]
      have h1 : (ys.getD k 0 :: y :: ys.set k x).Perm
          (y :: ys.getD k 0 :: ys.set k x) := List.Perm.swap _ _ _
      have h2 : (y :: ys.getD k 0 :: ys.set k x).Perm (y :: x :: ys) :=
        (ih k (by simpa using hk)).cons y
      have h3 : (y :: x :: ys).Perm (x :: y :: ys) := List.Perm.swap _ _ _
      exact h1.trans (h2.trans h3)

theorem swap_perm (l : List Nat) (i j : Nat) (hi : i < l.length)
    (hj : j < l.length) :
    ((l.set i (l.getD j 0)).set j (l.getD i 0)).Perm l := by
  induction l generalizing i j with
  | nil => simp at hi
  | cons y ys ih =>
    cases i with
    | zero =>
      cases j with
      | zero =>
        rw [List.set_set, set_getD_self]
      | succ k =>
        simp only [List.getD_cons_zero, List.getD_cons_succ,
          List.set_cons_zero, List.set_cons_succ]
        exact set_head_perm ys k y (by simpa using hj)
    | succ m =>
      cases j with
      | zero =>
        simp only [List.getD_cons_zero, List.getD_cons_succ,
          List.set_cons_zero, List.set_cons_succ]
        exact set_head_perm ys m y (by simpa using hi)
      | succ k =>
        simp only [List.getD_cons_succ, List.set_cons_succ]
        exact (ih m k (by simpa using hi) (by simpa using hj)).cons y

theorem markAsAllocated_perm (t : ResourceTracker) (i : Nat)
    (hi : i < t.unallocated_size) (hu : t.unallocated_size ≤ t.handles.length) :
    (t.markAsAllocated i).handles.Perm t.handles :=
  swap_perm t.handles i (t.unallocated_size - 1)
    (Nat.lt_of_lt_of_le hi hu)
    (Nat.lt_of_lt_of_le (by omega) hu)

theorem markAsAllocated_unallocated (t : ResourceTracker) (i : Nat) :
    (t.markAsAllocated i).unallocated_size = t.unallocated_size - 1 := rfl

theorem length_markAsAllocated (t : ResourceTracker) (i : Nat) :
    (t.markAsAllocated i).handles.length = t.handles.length := by
  simp [ResourceTracker.markAsAllocated]

/-! ### C6: the tracker never loses or duplicates a handle -/

theorem applyOps_perm (N : Nat) (ops : List TrackerOp) :
    ∀ t : ResourceTracker, t.handles.Perm (List.range N) →
      t.unallocated_size ≤ t.handles.length → validOps t ops = true →
      (applyOps t ops).handles.Perm (List.range N) := by
  induction ops with
  | nil => intro t hperm _ _; exact hperm
  | cons op rest ih =>
    intro t hperm hu hvalid
    cases op with
    | handleAt i =>
      rw [validOps, Bool.and_eq_true] at hvalid
      exact ih t hperm hu hvalid.2
    | consume i =>
      rw [validOps, Bool.and_eq_true, decide_eq_true_eq] at hvalid
      have hperm1 : (t.markAsAllocated i).handles.Perm (List.range N) :=
        (markAsAllocated_perm t i hvalid.1 hu).trans hperm
      have hu1 : (t.markAsAllocated i).unallocated_size ≤
          (t.markAsAllocated i).handles.length := by
        rw [markAsAllocated_unallocated, length_markAsAllocated]
        omega
      exact ih (t.markAsAllocated i) hperm1 hu1 hvalid.2

/-- C6: after `create(N)` followed by any valid sequence of `getHandle` and
`markAsAllocated` calls (indices within `[0, unallocated_size)`), the
multiset of values in `handles` is exactly `{0, …, N−1}`: no handle is lost
or duplicated. -/
theorem c6_tracker_handle_multiset (N : Nat) (ops : List TrackerOp)
    (hvalid : validOps (ResourceTracker.create N) ops = true) :
    (applyOps (ResourceTracker.create N) ops).handles.Perm (List.range N) :=
  applyOps_perm N ops (ResourceTracker.create N) (List.Perm.refl _)
    (by simp [ResourceTracker.create]) hvalid

/-- Witness for C6: `N = 3`, consume 1, read handle 0, consume 1 again. -/
theorem c6_witness :
    validOps (ResourceTracker.create 3)
      [TrackerOp.consume 1, TrackerOp.handleAt 0, TrackerOp.consume 1]
      = true ∧
    (applyOps (ResourceTracker.create 3)
      [TrackerOp.consume 1, TrackerOp.handleAt 0,
        TrackerOp.consume 1]).handles.Perm (List.range 3) :=
  ⟨by decide,
    c6_tracker_handle_multiset 3
      [TrackerOp.consume 1, TrackerOp.handleAt 0, TrackerOp.consume 1]
      (by decide)⟩

/-! ### C3: membership lemmas for the successful candidate -/

theorem sweep_some_mem (cands : List Candidate) (hook : Nat → Option String)
    (c : Nat) (msgs : List String) (cand : Candidate)
    (h : (sweep cands hook c msgs).1 = some cand) : cand ∈ cands := by
  induction cands generalizing c msgs with
  | nil => simp [sweep] at h
  | cons x rest ih =>
    rw [sweep] at h
    cases hhc : hook c with
    | none =>
      rw [hhc] at h
      simp at h
      simp [h]
    | some m =>
      rw [hhc] at h
      exact List.mem_cons_of_mem x (ih (c + 1) (msgs ++ [m]) h)

theorem tryLoop_some_mem (cands : List Candidate) (hook : Nat → Option String)
    (t c : Nat) (msgs : List String) (cand : Candidate)
    (h : (tryLoop cands hook t c msgs).1 = some cand) : cand ∈ cands := by
  induction t generalizing c msgs with
  | zero => simp [tryLoop] at h
  | succ t ih =>
    rw [tryLoop] at h
    rcases hsw : sweep cands hook c msgs with ⟨_ | x, c1, msgs1⟩
    · rw [hsw] at h
      exact ih c1 msgs1 h
    · rw [hsw] at h
      simp at h
      subst h
      exact sweep_some_mem cands hook c msgs x (by rw [hsw])

theorem mem_mkCandidates_tracker (states : List State) (tr : ResourceTracker)
    (cand : Candidate) (h : cand ∈ mkCandidates states (some tr)) :
    cand.localIndex < tr.unallocated_size ∧
      cand.poolIndex = tr.getHandle cand.localIndex := by
  simp only [mkCandidates, poolsSize, poolIndexAt, List.mem_map,
    List.mem_range] at h
  obtain ⟨i, hi, heq⟩ := h
  subst heq
  exact ⟨hi, rfl⟩

/-! ### Take/swap interaction for the tracker invariant -/

theorem mem_take_of_getElem (l : List Nat) (q m : Nat) (hq : q < m)
    (hlen : q < l.length) : l[q] ∈ l.take m := by
  have h1 : q < (l.take m).length := by rw [List.length_take]; omega
  have h2 : (l.take m).get ⟨q, h1⟩ = l[q] := List.getElem_take l
  rw [← h2]
  exact List.get_mem _ q h1

theorem mem_take_getElem (l : List Nat) (m x : Nat) (hx : x ∈ l.take m) :
    ∃ q, q < m ∧ ∃ hq : q < l.length, l[q] = x := by
  rw [List.mem_iff_getElem] at hx
  obtain ⟨q, hq, heq⟩ := hx
  have hql : q < m ∧ q < l.length := by
    rw [List.length_take] at hq
    omega
  refine ⟨q, hql.1, hql.2, ?_⟩
  rw [← heq]
  exact (List.getElem_take l).symm

theorem mem_take_markAsAllocated (t : ResourceTracker) (i x : Nat)
    (hi : i < t.unallocated_size) (hu : t.unallocated_size ≤ t.handles.length)
    (hnd : t.handles.Nodup)
    (hx : x ∈ (t.markAsAllocated i).handles.take
      (t.markAsAllocated i).unallocated_size) :
    x ∈ t.handles.take t.unallocated_size ∧ x ≠ t.getHandle i := by
  have hilen : i < t.handles.length := by omega
  have hjlen : t.unallocated_size - 1 < t.handles.length := by omega
  have hgi : t.getHandle i = t.handles[i] :=
    List.getD_eq_getElem t.handles 0 hilen
  have hgj : t.handles.getD (t.unallocated_size - 1) 0 =
      t.handles[t.unallocated_size - 1] :=
    List.getD_eq_getElem t.handles 0 hjlen
  obtain ⟨q, hq, hql, heq⟩ := mem_take_getElem _ _ _ hx
  rw [markAsAllocated_unallocated] at hq
  have hqlen : q < t.handles.length := by
    have := hql
    rwa [length_markAsAllocated] at this
  have hjne : ¬ (t.unallocated_size - 1 = q) := by omega
  have hq2 : q < (t.handles.set i
      (t.handles.getD (t.unallocated_size - 1) 0)).length := by
    rw [List.length_set]
    omega
  have hstep1 : (t.markAsAllocated i).handles[q] =
      (t.handles.set i (t.handles.getD (t.unallocated_size - 1) 0))[q] := by
    show ((t.handles.set i (t.handles.getD (t.unallocated_size - 1) 0)).set
        (t.unallocated_size - 1) (t.handles.getD i 0))[q] = _
    rw [List.getElem_set]
    exact if_neg hjne
  have hstep2 : (t.handles.set i
      (t.handles.getD (t.unallocated_size - 1) 0))[q] =
      if i = q then t.handles.getD (t.unallocated_size - 1) 0
      else t.handles[q] :=
    List.getElem_set hq2
  rw [heq] at hstep1
  by_cases hiq : i = q
  · have hxval : x = t.handles[t.unallocated_size - 1] := by
      rw [hstep1, hstep2, if_pos hiq]
      exact hgj
    constructor
    · rw [hxval]
      exact mem_take_of_getElem t.handles (t.unallocated_size - 1)
        t.unallocated_size (by omega) hjlen
    · rw [hxval, hgi]
      intro hcontra
      have : t.unallocated_size - 1 = i :=
        hnd.getElem_inj_iff.mp hcontra
      omega
  · have hxval : x = t.handles[q] := by
      rw [hstep1, hstep2, if_neg hiq]
    constructor
    · rw [hxval]
      exact mem_take_of_getElem t.handles q t.unallocated_size
        (by omega) hqlen
    · rw [hxval, hgi]
      intro hcontra
      have : q = i := hnd.getElem_inj_iff.mp hcontra
      omega

theorem trackerInv_step (n : Nat) (t : ResourceTracker) (acc : List Nat)
    (i : Nat) (hinv : TrackerInv n t acc) (hi : i < t.unallocated_size) :
    TrackerInv n (t.markAsAllocated i) (acc ++ [t.getHandle i]) := by
  obtain ⟨hperm, hu, hnd, hout⟩ := hinv
  have hlen : t.handles.length = n := by
    rw [hperm.length_eq, List.length_range]
  have hul : t.unallocated_size ≤ t.handles.length := by omega
  have hndh : t.handles.Nodup := hperm.nodup_iff.mpr (List.nodup_range n)
  have hilen : i < t.handles.length := by omega
  have hmemtake : t.getHandle i ∈ t.handles.take t.unallocated_size := by
    rw [ResourceTracker.getHandle, List.getD_eq_getElem t.handles 0 hilen]
    exact mem_take_of_getElem t.handles i t.unallocated_size hi hilen
  have hnotacc : t.getHandle i ∉ acc := fun hmem => hout _ hmem hmemtake
  refine ⟨?_, ?_, ?_, ?_⟩
  · exact (markAsAllocated_perm t i hi hul).trans hperm
  · rw [markAsAllocated_unallocated]
    omega
  · simp [List.nodup_append, hnd, hnotacc]
  · intro x hx hmem
    have hboth := mem_take_markAsAllocated t i x hi hul hndh hmem
    rcases List.mem_append.mp hx with hxa | hxs
    · exact hout x hxa hboth.1
    · have : x = t.getHandle i := by simpa using hxs
      exact hboth.2 this

theorem getResource_success_spec (states : List State) (maxTries : Nat)
    (tr : ResourceTracker) (hook : Nat → Option String) (c : Nat) (idx : Nat)
    (h : (getResource states maxTries (some tr) hook c).success = some idx) :
    ∃ cand : Candidate, cand.localIndex < tr.unallocated_size ∧
      idx = tr.getHandle cand.localIndex ∧
      (getResource states maxTries (some tr) hook c).tracker =
        some (tr.markAsAllocated cand.localIndex) := by
  rw [getResource_eq] at h ⊢
  rcases htl : tryLoop (probeOrder (mkCandidates states (some tr))) hook
      maxTries c [] with ⟨_ | cand, c1, msgs1⟩
  · rw [htl] at h
    simp at h
  · rw [htl] at h
    simp only at h
    have hmem : cand ∈ mkCandidates states (some tr) :=
      (List.perm_insertionSort candLE _).mem_iff.mp
        (tryLoop_some_mem (probeOrder (mkCandidates states (some tr)))
          hook maxTries c [] cand (by rw [htl]))
    obtain ⟨hloc, hpool⟩ := mem_mkCandidates_tracker states tr cand hmem
    refine ⟨cand, hloc, ?_, ?_⟩
    · rw [← hpool]
      exact (Option.some_inj.mp h).symm
    · rfl


theorem getManyLoop_nodup (n : Nat) (statesFor : Nat → List State)
    (maxTries : Nat) (hook : Nat → Option String) (skip : Bool) :
    ∀ (r i : Nat) (st : GManyState) (l : List Nat),
      TrackerInv n st.tracker st.acc →
      (getManyLoop statesFor maxTries hook skip i r st).1 = Except.ok l →
      l.Nodup ∧ l.length ≤ st.acc.length + r := by
  intro r
  induction r with
  | zero =>
    intro i st l hinv h
    simp only [getManyLoop] at h
    obtain rfl : st.acc = l := by simpa using h
    exact ⟨hinv.2.2.1, le_refl _⟩
  | succ r ih =>
    intro i st l hinv h
    simp only [getManyLoop] at h
    rcases hres : (getResource (statesFor i) maxTries (some st.tracker) hook
        st.counter).success with _ | idx
    · rw [hres] at h
      simp only at h
      by_cases hcond : i = 0 ∧ skip = false
      · rw [if_pos hcond] at h
        simp at h
      · rw [if_neg hcond] at h
        obtain rfl : st.acc = l := by simpa using h
        exact ⟨hinv.2.2.1, by omega⟩
    · rw [hres] at h
      simp only at h
      obtain ⟨cand, hloc, hidx, htrk⟩ :=
        getResource_success_spec (statesFor i) maxTries st.tracker hook
          st.counter idx hres
      have hinv1 : TrackerInv n (st.tracker.markAsAllocated cand.localIndex)
          (st.acc ++ [st.tracker.getHandle cand.localIndex]) :=
        trackerInv_step n st.tracker st.acc cand.localIndex hinv hloc
      rw [← hidx] at hinv1
      have hinv2 : TrackerInv n
          ((getResource (statesFor i) maxTries (some st.tracker) hook
            st.counter).tracker.getD st.tracker) (st.acc ++ [idx]) := by
        rw [htrk]
        exact hinv1
      have hnext := ih (i + 1)
        { tracker := (getResource (statesFor i) maxTries (some st.tracker)
            hook st.counter).tracker.getD st.tracker
          counter := (getResource (statesFor i) maxTries (some st.tracker)
            hook st.counter).counter
          acc := st.acc ++ [idx]
          failTry := st.failTry + (getResource (statesFor i) maxTries
            (some st.tracker) hook st.counter).failTry
          failAtAll := st.failAtAll + (getResource (statesFor i) maxTries
            (some st.tracker) hook st.counter).failAtAll } l hinv2 h
      refine ⟨hnext.1, ?_⟩
      have hlen := hnext.2
      simp only [List.length_append, List.length_cons,
        List.length_nil] at hlen
      omega

/-- C3: for every `n`, every per-iteration snapshot, every retry budget and
every observable sequence of per-attempt successes and failures of the
acquisition hook, a list returned by `getMany` (selectMany with
`max_parallel_replicas = k`) has at most `k` connections and no two of them
come from the same replica index. -/
theorem c3_getMany_at_most_k_distinct (n : Nat) (statesFor : Nat → List State)
    (maxTries : Nat) (hook : Nat → Option String) (settings : Option Settings)
    (l : List Nat)
    (h : (getMany n statesFor maxTries hook settings).1 = Except.ok l) :
    l.length ≤ maxConnections settings ∧ l.Nodup := by
  have hinv : TrackerInv n (ResourceTracker.create n) [] := by
    refine ⟨List.Perm.refl _, ?_, List.nodup_nil, ?_⟩
    · simp [ResourceTracker.create]
    · intro x hx
      simp at hx
  simp only [getMany] at h
  have hres := getManyLoop_nodup n statesFor maxTries hook
    (skipUnavailable settings) (maxConnections settings) 0
    { tracker := ResourceTracker.create n, counter := 0, acc := [],
      failTry := 0, failAtAll := 0 } l hinv h
  exact ⟨by simpa using hres.2, hres.1⟩

/-- Witness for C3: two replicas, an always-succeeding hook and
`max_parallel_replicas = 2` yield the two distinct replicas `[0, 1]`. -/
theorem c3_witness :
    (getMany 2 (fun _ => ([⟨0, 0, 0⟩, ⟨0, 0, 0⟩] : List State)) 1
        (fun _ => none) (some ⟨2, false⟩)).1 = Except.ok [0, 1] ∧
    (([0, 1] : List Nat).length ≤ maxConnections (some ⟨2, false⟩) ∧
      ([0, 1] : List Nat).Nodup) :=
  ⟨rfl,
    c3_getMany_at_most_k_distinct 2
      (fun _ => ([⟨0, 0, 0⟩, ⟨0, 0, 0⟩] : List State)) 1 (fun _ => none)
      (some ⟨2, false⟩) [0, 1] rfl⟩

/-! ### C10: `FailAtAll` advances on every failing `getResource` -/

theorem getResource_all_success (states : List State) (mt : Nat)
    (tr : ResourceTracker) (hook : Nat → Option String) (c : Nat)
    (hhook : ∀ x, hook x = none) (hu : 1 ≤ tr.unallocated_size) :
    ∃ cand : Candidate,
      getResource states (mt + 1) (some tr) hook c =
        { success := some cand.poolIndex
          tracker := some (tr.markAsAllocated cand.localIndex)
          counter := c + 1
          msgs := []
          failTry := 0
          failAtAll := 0 } := by
  have hlen : (probeOrder (mkCandidates states (some tr))).length =
      tr.unallocated_size := by
    rw [length_probeOrder, length_mkCandidates]
    rfl
  rcases hc : probeOrder (mkCandidates states (some tr)) with _ | ⟨head, rest⟩
  · rw [hc] at hlen
    simp at hlen
    omega
  · refine ⟨head, ?_⟩
    rw [getResource_eq, hc]
    have htl : tryLoop (head :: rest) hook (mt + 1) c [] =
        (some head, c + 1, []) := by
      rw [tryLoop, sweep, hhook c]
    rw [htl]
    rfl

theorem getManyLoop_all_success (statesFor : Nat → List State) (mt : Nat)
    (hook : Nat → Option String) (skip : Bool) (hhook : ∀ x, hook x = none) :
    ∀ (u r i : Nat) (st : GManyState),
      st.tracker.unallocated_size = u → u < r → (1 ≤ u ∨ 1 ≤ i) →
      ∃ l, (getManyLoop statesFor (mt + 1) hook skip i r st).1 =
          Except.ok l ∧
        l.length = st.acc.length + u ∧
        (getManyLoop statesFor (mt + 1) hook skip i r st).2.failAtAll =
          st.failAtAll + 1 := by
  intro u
  induction u with
  | zero =>
    intro r i st hu0 hr hcond
    have hi1 : 1 ≤ i := by omega
    rcases r with _ | r1
    · omega
    · simp only [getManyLoop]
      have hres := getResource_of_poolsSize_zero (statesFor i) (mt + 1)
        (some st.tracker) hook st.counter
        (by simp [poolsSize, ResourceTracker.getUnallocatedSize, hu0])
      rw [hres]
      simp only
      rw [if_neg (by omega : ¬ (i = 0 ∧ skip = false))]
      exact ⟨st.acc, rfl, by omega, rfl⟩
  | succ u1 ih =>
    intro r i st huS hr hcond
    rcases r with _ | r1
    · omega
    · simp only [getManyLoop]
      obtain ⟨cand, hres⟩ := getResource_all_success (statesFor i) mt
        st.tracker hook st.counter hhook (by omega)
      rw [hres]
      simp only [Option.getD_some]
      obtain ⟨l, hl, hlen, hfaa⟩ := ih r1 (i + 1)
        { tracker := st.tracker.markAsAllocated cand.localIndex
          counter := st.counter + 1
          acc := st.acc ++ [cand.poolIndex]
          failTry := st.failTry + 0
          failAtAll := st.failAtAll + 0 }
        (by rw [markAsAllocated_unallocated, huS]; omega) (by omega)
        (by omega)
      refine ⟨l, hl, ?_, ?_⟩
      · rw [hlen]
        simp only [List.length_append, List.length_cons, List.length_nil]
        omega
      · rw [hfaa]
        simp

/-- C10: every failing `getResource` call increments
`DistributedConnectionFailAtAll` by exactly one even when the acquisition
hook is never invoked (`max_tries = 0`, or zero candidate slots: `N = 0`,
or all tracker handles already consumed); consequently `getMany` with an
always-succeeding hook, `1 ≤ N` replicas, `max_tries ≥ 1` and
`max_parallel_replicas > N` returns all `N` replicas and still increments
`DistributedConnectionFailAtAll` exactly once — on the iteration after all
replicas have been acquired. -/
theorem c10_failAtAll_on_every_failure :
    (∀ (states : List State) (maxTries : Nat)
        (tracker : Option ResourceTracker) (hook : Nat → Option String)
        (c : Nat),
      maxTries = 0 ∨ poolsSize states tracker = 0 →
      (getResource states maxTries tracker hook c).success = none ∧
      (getResource states maxTries tracker hook c).counter = c ∧
      (getResource states maxTries tracker hook c).failAtAll = 1) ∧
    (∀ (n : Nat) (statesFor : Nat → List State) (mt : Nat)
        (hook : Nat → Option String) (settings : Option Settings),
      (∀ x, hook x = none) → 1 ≤ n → n < maxConnections settings →
      ∃ l, (getMany n statesFor (mt + 1) hook settings).1 = Except.ok l ∧
        l.length = n ∧
        (getMany n statesFor (mt + 1) hook settings).2.failAtAll = 1) := by
  constructor
  · intro states maxTries tracker hook c hcase
    rcases hcase with h0 | hp
    · subst h0
      rw [getResource_of_maxTries_zero]
      exact ⟨rfl, rfl, rfl⟩
    · rw [getResource_of_poolsSize_zero states maxTries tracker hook c hp]
      exact ⟨rfl, rfl, rfl⟩
  · intro n statesFor mt hook settings hhook hn hk
    simp only [getMany]
    obtain ⟨l, hl, hlen, hfaa⟩ := getManyLoop_all_success statesFor mt hook
      (skipUnavailable settings) hhook n (maxConnections settings) 0
      { tracker := ResourceTracker.create n, counter := 0, acc := [],
        failTry := 0, failAtAll := 0 }
      rfl hk (Or.inl hn)
    exact ⟨l, hl, by simpa using hlen, by simpa using hfaa⟩

/-- Witness for C10: `getResource` with `max_tries = 0` (hook never
invoked) and `getMany` over one always-succeeding replica with
`max_parallel_replicas = 2`. -/
theorem c10_witness :
    (((0 : Nat) = 0 ∨ poolsSize [] none = 0) ∧
      (getResource [] 0 none (fun _ => none) 5).success = none ∧
      (getResource [] 0 none (fun _ => none) 5).counter = 5 ∧
      (getResource [] 0 none (fun _ => none) 5).failAtAll = 1) ∧
    ((∀ x : Nat, (fun _ : Nat => (none : Option String)) x = none) ∧
      1 ≤ 1 ∧ 1 < maxConnections (some ⟨2, false⟩)) ∧
    (∃ l, (getMany 1 (fun _ => ([⟨0, 0, 0⟩] : List State)) (0 + 1)
        (fun _ => none) (some ⟨2, false⟩)).1 = Except.ok l ∧
      l.length = 1 ∧
      (getMany 1 (fun _ => ([⟨0, 0, 0⟩] : List State)) (0 + 1)
        (fun _ => none) (some ⟨2, false⟩)).2.failAtAll = 1) :=
  ⟨⟨Or.inl rfl,
      c10_failAtAll_on_every_failure.1 [] 0 none (fun _ => none) 5
        (Or.inl rfl)⟩,
    ⟨fun _ => rfl, by decide, by decide⟩,
    c10_failAtAll_on_every_failure.2 1 (fun _ => ([⟨0, 0, 0⟩] : List State))
      0 (fun _ => none) (some ⟨2, false⟩) (fun _ => rfl) (by decide)
      (by decide)⟩
